import Mathlib

/-!
Shallow embedding of the job-queue / admission-control subsystem and the
pipeline resource gate of the qwen-image-edit API server
(src/api/job_queue.py, src/api/pipeline_manager.py, src/api/main.py).

Conventions of the embedding:
* Python `datetime` values become `Nat` ticks (seconds); `datetime.now()`
  becomes an explicit `now : Nat` argument at each call site.
* `uuid.uuid4()` becomes an explicit fresh `newId : Nat` argument.
* The `jobs` dict (`job_id -> Job`) becomes an association list of `Job`
  records looked up by `job_id` (dict keys are the uuids, which are unique;
  theorems that need uniqueness carry a `Nodup` hypothesis).
* `asyncio.Queue` becomes the list of enqueued-not-yet-dequeued job ids in
  FIFO order.
* Mutation of a shared `Job` object becomes rewriting the record stored in
  the lookup table (Python aliases the very same object from the dict and
  from the queue).
* The external long-running procedures (model load, diffusion pipeline
  call) are opaque collaborators: they enter the embedding as explicit
  outcome / function parameters (`Except String _`), one value per call.
-/

namespace QwenAPI

/-- Job status enumeration (job_queue.py, class JobStatus). -/
inductive JobStatus where
  | queued
  | processing
  | completed
  | failed
  | cancelled
deriving DecidableEq, Repr

/-- One image-editing job (job_queue.py, dataclass Job). -/
structure Job where
  job_id : Nat
  instruction : String
  image_data : List Nat
  model : Option String := none
  seed : Option Int := none
  system_prompt : Option String := none
  status : JobStatus := .queued
  created_at : Nat
  started_at : Option Nat := none
  completed_at : Option Nat := none
  result_path : Option String := none
  result_seed : Option Int := none
  error : Option String := none
  position : Nat := 0
deriving DecidableEq, Repr

/-- State of a JobQueue instance (job_queue.py, class JobQueue).
`queue` is the bounded FIFO of enqueued-not-yet-dequeued job ids;
`jobs` is the `job_id -> Job` lookup table; `current_job` holds the id of
the job designated current (Python stores the Job object itself and reads
its `job_id` field). -/
structure JobQueue where
  max_size : Nat := 10
  cleanup_age_seconds : Nat := 3600
  queue : List Nat := []
  jobs : List Job := []
  current_job : Option Nat := none
deriving DecidableEq, Repr

/-- `self.queue.qsize()`. -/
def JobQueue.qsize (q : JobQueue) : Nat := q.queue.length

/-- `self.queue.full()` — asyncio.Queue.full() is
`self._maxsize > 0 and self.qsize() >= self._maxsize`
(a non-positive maxsize means an unbounded queue). -/
def JobQueue.full (q : JobQueue) : Bool :=
  0 < q.max_size ∧ q.max_size ≤ q.queue.length

/-- `self.jobs.get(job_id)` (job_queue.py, JobQueue.get_job). -/
def JobQueue.get_job (q : JobQueue) (id : Nat) : Option Job :=
  q.jobs.find? (fun j => j.job_id = id)

/-- Rewrite the record with the given id in the lookup table
(the embedding of mutating the shared Job object in place). -/
def updateJob (jobs : List Job) (id : Nat) (f : Job → Job) : List Job :=
  jobs.map (fun j => if j.job_id = id then f j else j)

/-- JobQueue.submit_job.  Returns the call outcome together with the state
after the call; on the full-queue path the method raises
`asyncio.QueueFull` before any job object is created, so the state is
returned unchanged.  `newId` is the value drawn from `uuid.uuid4()` and
`now` the value of `datetime.now()`. -/
def JobQueue.submit_job (q : JobQueue) (newId now : Nat) (instruction : String)
    (image_data : List Nat) (model : Option String) (seed : Option Int)
    (system_prompt : Option String) : Except String Job × JobQueue :=
  if q.full then
    (.error ("Queue is full (max " ++ toString q.max_size ++ " jobs)"), q)
  else
    let job : Job :=
      { job_id := newId
        instruction := instruction
        image_data := image_data
        model := model
        seed := seed
        system_prompt := system_prompt
        status := .queued
        created_at := now
        position := q.qsize + 1 }
    (.ok job, { q with queue := q.queue ++ [newId], jobs := q.jobs ++ [job] })

/-- JobQueue.complete_job: no-op on an unknown id; otherwise sets status
COMPLETED, stamps `completed_at`, records the result, and clears
`current_job` when this job was current. -/
def JobQueue.complete_job (q : JobQueue) (id : Nat) (result_path : String)
    (result_seed : Int) (now : Nat) : JobQueue :=
  match q.get_job id with
  | none => q
  | some _ =>
      let q1 := { q with jobs := updateJob q.jobs id (fun j =>
        { j with status := .completed, completed_at := some now,
                 result_path := some result_path, result_seed := some result_seed }) }
      if q.current_job = some id then { q1 with current_job := none } else q1

/-- JobQueue.fail_job: no-op on an unknown id; otherwise sets status
FAILED, stamps `completed_at`, records the error message, and clears
`current_job` when this job was current. -/
def JobQueue.fail_job (q : JobQueue) (id : Nat) (error : String) (now : Nat) : JobQueue :=
  match q.get_job id with
  | none => q
  | some _ =>
      let q1 := { q with jobs := updateJob q.jobs id (fun j =>
        { j with status := .failed, completed_at := some now, error := some error }) }
      if q.current_job = some id then { q1 with current_job := none } else q1

/-- The comparison `key=lambda x: x.created_at` of
JobQueue._update_queue_positions.  Python `sorted` is stable; Mathlib's
`insertionSort` with this total preorder is stable as well. -/
def byCreated (a b : Job) : Prop := a.created_at ≤ b.created_at

instance : DecidableRel byCreated := fun x y => inferInstanceAs (Decidable (x.created_at ≤ y.created_at))

instance : IsTotal Job byCreated := ⟨fun x y => Nat.le_total x.created_at y.created_at⟩

instance : IsTrans Job byCreated := ⟨fun _ _ _ h1 h2 => Nat.le_trans h1 h2⟩

/-- `enumerate(queued_jobs, start=1)` writing each index into `position`. -/
def assignPositions : Nat → List Job → List Job
  | _, [] => []
  | n, j :: js => { j with position := n } :: assignPositions (n + 1) js

/-- `sorted([j for j in self.jobs.values() if j.status == QUEUED], key=lambda x: x.created_at)`
— Python `sorted` is stable, as is insertion sort with a `≤` comparison. -/
def queuedByCreated (q : JobQueue) : List Job :=
  List.insertionSort byCreated (q.jobs.filter (fun j => j.status = .queued))

/-- Write-back of the recomputed position into one table record: a job
that occurs in the sorted-and-enumerated queued list receives its new
position; every other job is untouched. -/
def posRewrite (sortedQ : List Job) (j : Job) : Job :=
  match sortedQ.find? (fun s => s.job_id = j.job_id) with
  | some s => { j with position := s.position }
  | none => j

/-- JobQueue._update_queue_positions: sort the still-QUEUED jobs by
`created_at` ascending and write position 1..n back into the shared Job
objects (in the embedding: into the records of the lookup table, matched
by id; only the `position` field is written). -/
def JobQueue.update_queue_positions (q : JobQueue) : JobQueue :=
  { q with jobs := q.jobs.map (posRewrite (assignPositions 1 (queuedByCreated q))) }

/-- Lines 187–193 of job_queue.py: the worker has received job `id` from
the queue — mark it PROCESSING, stamp `started_at`, designate it current,
then recompute queue positions. -/
def JobQueue.start_job (q : JobQueue) (id : Nat) (now : Nat) : JobQueue :=
  let q1 := { q with
    jobs := updateJob q.jobs id (fun j =>
      { j with status := .processing, started_at := some now }),
    current_job := some id }
  q1.update_queue_positions

/-- One successful `self.queue.get()` plus the dequeue bookkeeping: the
queue head is removed and started.  On an empty queue the wait times out
and the iteration leaves the state unchanged. -/
def JobQueue.dequeue_step (q : JobQueue) (now : Nat) : JobQueue :=
  match q.queue with
  | [] => q
  | id :: rest => JobQueue.start_job { q with queue := rest } id now

/-- One sweep of JobQueue._cleanup_old_jobs (the body after the periodic
sleep): every job whose status is COMPLETED or FAILED, whose
`completed_at` is set, and whose age exceeds `cleanup_age_seconds` is
deleted from the lookup table.  Ages are compared as in
`(now - completed_at).total_seconds() > cleanup_age_seconds`; with `Nat`
ticks a future `completed_at` truncates to age 0, matching the negative
Python age, which also fails the strict comparison.
`staleTerminal` is the per-job removal test of that sweep. -/
def staleTerminal (window now : Nat) (j : Job) : Bool :=
  decide (j.status = .completed ∨ j.status = .failed) &&
  match j.completed_at with
  | some t => decide (window < now - t)
  | none => false

/-- One sweep of JobQueue._cleanup_old_jobs keeps exactly the jobs that do
not pass the removal test (`del self.jobs[job_id]` for every collected id). -/
def JobQueue.cleanup_old_jobs (q : JobQueue) (now : Nat) : JobQueue :=
  { q with jobs := q.jobs.filter (fun j => ! staleTerminal q.cleanup_age_seconds now j) }

/-- The dict returned by JobQueue.get_queue_status. -/
structure QueueStatus where
  queue_size : Nat
  max_queue_size : Nat
  queued_count : Nat
  processing_count : Nat
  completed_count : Nat
  failed_count : Nat
  current_job_id : Option Nat
  total_jobs : Nat
deriving DecidableEq, Repr

/-- JobQueue.get_queue_status. -/
def JobQueue.get_queue_status (q : JobQueue) : QueueStatus :=
  let queued_jobs := q.jobs.filter (fun j => j.status = .queued)
  let processing_jobs := q.jobs.filter (fun j => j.status = .processing)
  let completed_jobs := q.jobs.filter (fun j => j.status = .completed)
  let failed_jobs := q.jobs.filter (fun j => j.status = .failed)
  { queue_size := q.qsize
    max_queue_size := q.max_size
    queued_count := queued_jobs.length
    processing_count := processing_jobs.length
    completed_count := completed_jobs.length
    failed_count := failed_jobs.length
    current_job_id := q.current_job
    total_jobs := q.jobs.length }

/-! ## Worker loop (job_queue.py, JobQueue._process_queue)

One iteration of the `while self._running` body.  The loop has a
function-scoped local variable `job`: it is unbound until the first
successful `queue.get()` and afterwards keeps referring to the job of the
most recent successful wait.  `jobVar` models that local.  The outer
`except Exception` handler runs `if job:` — evaluated while `job` is
unbound this raises `UnboundLocalError`, which nothing catches, so it
escapes the `while` loop and ends the worker task. -/

/-- Outcome of `await asyncio.wait_for(self.queue.get(), timeout=1.0)`:
the bounded poll times out, returns the queue head, or raises some other
exception. -/
inductive WaitResult where
  | timeout
  | got
  | raised (msg : String)

/-- Result of one loop iteration: the loop proceeds to its next iteration
with the new queue state and `job` binding, or an exception escaped the
body and the worker task is terminated. -/
inductive IterResult where
  | nextIter (q : JobQueue) (jobVar : Option Nat)
  | crashed (q : JobQueue) (jobVar : Option Nat) (msg : String)
deriving DecidableEq

/-- The injected processing callback (main.py process_job_callback as seen
from the loop): given the queue state and the job id it either returns
normally — having itself applied the terminal transitions to the queue —
or raises with a message.  `none` models `process_callback` never having
been configured. -/
def Callback : Type := JobQueue → Nat → Except String JobQueue

/-- One iteration of JobQueue._process_queue's `while` body. -/
def worker_iteration (q : JobQueue) (jobVar : Option Nat) (now : Nat)
    (w : WaitResult) (cb : Option Callback) : IterResult :=
  match w with
  | .timeout => .nextIter q jobVar
  | .got =>
      match q.queue with
      | [] => .nextIter q jobVar
      | id :: rest =>
          let q1 := JobQueue.start_job { q with queue := rest } id now
          match cb with
          | some f =>
              match f q1 id with
              | .ok q2 => .nextIter q2 (some id)
              | .error e => .nextIter (q1.fail_job id e now) (some id)
          | none =>
              .nextIter (q1.fail_job id "No processing callback configured" now) (some id)
  | .raised _ =>
      match jobVar with
      | none =>
          .crashed q none "UnboundLocalError: local variable referenced before assignment"
      | some jid =>
          .nextIter
            { q with
              jobs := updateJob q.jobs jid (fun j =>
                { j with status := .failed, error := some "worker error",
                         completed_at := some now }),
              current_job := none }
            (some jid)

/-! ## Polling traces (claim C2)

The operations a poller can interleave with: the worker dequeuing the next
job, and the terminal transitions `complete_job` / `fail_job`. -/

/-- One queue operation. -/
inductive QueueOp where
  | dequeue (now : Nat)
  | complete (id : Nat) (result_path : String) (result_seed : Int) (now : Nat)
  | fail (id : Nat) (error : String) (now : Nat)

/-- Apply one operation to the queue state. -/
def JobQueue.applyOp (q : JobQueue) : QueueOp → JobQueue
  | .dequeue now => q.dequeue_step now
  | .complete id p s now => q.complete_job id p s now
  | .fail id e now => q.fail_job id e now

/-- The status a poller observes for job `id` (absent jobs poll NotFound). -/
def JobQueue.statusOf (q : JobQueue) (id : Nat) : Option JobStatus :=
  (q.get_job id).map (fun j => j.status)

/-- The states passed through while running a sequence of operations,
starting state included. -/
def traceStates (q : JobQueue) : List QueueOp → List JobQueue
  | [] => [q]
  | op :: ops => q :: traceStates (q.applyOp op) ops

/-- The statuses a poller observes for job `id` along a trace. -/
def observedStatuses (q : JobQueue) (ops : List QueueOp) (id : Nat) : List JobStatus :=
  (traceStates q ops).filterMap (fun s => s.statusOf id)

/-- Normal-operation guard: a dequeue only takes a QUEUED job and a
terminal transition is only applied to a job that is not already
terminal (each job reaches a terminal transition at most once). -/
def JobQueue.legalOp (q : JobQueue) : QueueOp → Bool
  | .dequeue _ =>
      match q.queue with
      | [] => true
      | id :: _ =>
          match q.get_job id with
          | none => true
          | some j => j.status = .queued
  | .complete id _ _ _ =>
      match q.get_job id with
      | none => true
      | some j => decide (j.status = .queued ∨ j.status = .processing)
  | .fail id _ _ =>
      match q.get_job id with
      | none => true
      | some j => decide (j.status = .queued ∨ j.status = .processing)

/-- A trace of operations that are each legal in the state they act on. -/
def LegalTrace : JobQueue → List QueueOp → Bool
  | _, [] => true
  | q, op :: ops => q.legalOp op && LegalTrace (q.applyOp op) ops

/-- Distance travelled along QUEUED → PROCESSING → {COMPLETED|FAILED}. -/
def statusRank : JobStatus → Nat
  | .queued => 0
  | .processing => 1
  | .completed => 2
  | .failed => 2
  | .cancelled => 2

/-- One observable step of the lifecycle order: the status is unchanged or
moves strictly forward.  A chain of `forward` steps is exactly a
subsequence of QUEUED → PROCESSING → {COMPLETED|FAILED} (with stutter):
in particular COMPLETED→FAILED, FAILED→COMPLETED and every backward move
are excluded. -/
def forward (a b : JobStatus) : Prop := a = b ∨ statusRank a < statusRank b

instance : ∀ a b, Decidable (forward a b) := fun a b =>
  inferInstanceAs (Decidable (a = b ∨ statusRank a < statusRank b))

/-! ## Resource gate (pipeline_manager.py, class PipelineManager) -/

/-- The three variant keys of PipelineManager.MODEL_CONFIGS. -/
def MODEL_KEYS : List String := ["4-step", "8-step", "40-step"]

/-- Gate state.  The loaded pipeline object is an opaque handle. -/
structure PipelineManager where
  pipeline : Option Nat := none
  current_model : Option String := none
  is_loading : Bool := false
  is_generating : Bool := false
deriving DecidableEq, Repr

/-- PipelineManager.load_model.  Runs under `self._model_lock`; the
externally-defined load procedure (`_load_model_internal`, a long-running
collaborator) is modelled by its outcome `loadOutcome`: `.ok h` means it
installed pipeline handle `h`, `.error e` means it raised.  Paths, in
source order: invalid key raises ValueError before touching any flag;
the already-loaded key with a live pipeline returns the cached handle
untouched; otherwise `is_loading` is set, the load runs, and the
`finally` clears `is_loading` on both the success and the raising path.
On the raising path `current_model` has not yet been reassigned (it is
written only at the very end of `_load_model_sync`) while the previous
pipeline attribute has been `del`eted, modelled as `none`. -/
def PipelineManager.load_model (pm : PipelineManager) (model_key : String)
    (loadOutcome : Except String Nat) : PipelineManager × Except String Nat :=
  if ¬ model_key ∈ MODEL_KEYS then
    (pm, .error ("Invalid model: " ++ model_key))
  else if pm.current_model = some model_key ∧ pm.pipeline ≠ none then
    (pm, .ok (pm.pipeline.getD 0))
  else
    let pm1 := { pm with is_loading := true }
    match loadOutcome with
    | .ok h =>
        ({ pm1 with pipeline := some h, current_model := some model_key,
                    is_loading := false }, .ok h)
    | .error e =>
        ({ pm1 with pipeline := none, is_loading := false }, .error e)

/-- `random.randint(lo, hi)` — inclusive on both ends — driven by an
arbitrary draw `r` from the underlying RNG. -/
def randint (lo hi : Int) (r : Nat) : Int := lo + (r : Int) % (hi - lo + 1)

/-- The face-preservation prefix prepended to every prompt. -/
def face_preservation : String :=
  "Preserve the person's facial features, identity, and likeness exactly."

/-- Strip every leading and trailing occurrence of `c` (Python str.strip
with a single-character argument). -/
def stripChar (c : Char) (s : String) : String :=
  String.mk (((s.toList.dropWhile (fun x => x = c)).reverse.dropWhile
    (fun x => x = c)).reverse)

/-- `text.strip().strip(chr 34).strip(chr 39)` as applied to the
instruction and the system prompt. -/
def sanitizeText (s : String) : String :=
  stripChar (Char.ofNat 39) (stripChar (Char.ofNat 34) s.trim)

/-- Prompt assembly of PipelineManager._generate_image_sync. -/
def build_full_prompt (instruction : String) (system_prompt : Option String) : String :=
  match system_prompt with
  | some sp => face_preservation ++ " " ++ sanitizeText sp ++ " " ++ sanitizeText instruction
  | none => face_preservation ++ " " ++ sanitizeText instruction

/-- PipelineManager._generate_image_sync.  The diffusion pipeline call is
the opaque collaborator `pipe`, taking the assembled prompt and the seed
the generator was created from (`torch.manual_seed(seed)`), and either
returning an image handle or raising.  Fails fast with the RuntimeError
when no pipeline is loaded or the loaded variant differs from
`model_key`; draws `random.randint(0, 2**32 - 1)` when no seed was
supplied; returns the generated image together with the seed used. -/
def PipelineManager.generate_image_sync (pm : PipelineManager)
    (instruction : String) (model_key : String) (seed : Option Int)
    (system_prompt : Option String) (r : Nat)
    (pipe : String → Int → Except String Nat) : Except String (Nat × Int) :=
  if pm.pipeline = none ∨ pm.current_model ≠ some model_key then
    .error ("Model " ++ model_key ++
      " not loaded. This should not happen - call load_model first.")
  else
    let seedUsed : Int :=
      match seed with
      | none => randint 0 (2 ^ 32 - 1) r
      | some s => s
    let full_prompt := build_full_prompt instruction system_prompt
    match pipe full_prompt seedUsed with
    | .ok img => .ok (img, seedUsed)
    | .error e => .error e

/-- PipelineManager.generate_image.  Runs under `self._generation_lock`;
sets `is_generating`, delegates to `_generate_image_sync` in the
executor, and clears `is_generating` in the `finally` on both the normal
and the raising path.  Returns the state after the call together with
the call outcome. -/
def PipelineManager.generate_image (pm : PipelineManager)
    (instruction : String) (model_key : String) (seed : Option Int)
    (system_prompt : Option String) (r : Nat)
    (pipe : String → Int → Except String Nat) :
    PipelineManager × Except String (Nat × Int) :=
  let pm1 := { pm with is_generating := true }
  let res := pm1.generate_image_sync instruction model_key seed system_prompt r pipe
  ({ pm1 with is_generating := false }, res)

/-! ## Helper lemmas -/

/-- The per-job removal test of the reaper, spelled out. -/
theorem staleTerminal_eq_true_iff (window now : Nat) (j : Job) :
    staleTerminal window now j = true ↔
      ((j.status = .completed ∨ j.status = .failed) ∧
        ∃ t, j.completed_at = some t ∧ window < now - t) := by
  unfold staleTerminal
  cases j.completed_at <;> simp

/-- Status partition: with no CANCELLED job, the four per-state filters
partition the tracked-job list. -/
theorem length_eq_sum_status_filters (l : List Job)
    (h : ∀ j ∈ l, j.status ≠ .cancelled) :
    l.length =
      (l.filter (fun j => j.status = .queued)).length +
      (l.filter (fun j => j.status = .processing)).length +
      (l.filter (fun j => j.status = .completed)).length +
      (l.filter (fun j => j.status = .failed)).length := by
  induction l with
  | nil => simp
  | cons a l ih =>
      have ha : a.status ≠ .cancelled := h a (List.mem_cons_self a l)
      have ih' := ih (fun j hj => h j (List.mem_cons_of_mem a hj))
      cases hs : a.status <;> simp [List.filter_cons, hs, List.length_cons] <;>
        first
        | omega
        | exact absurd hs ha

/-- Looking a job up by id commutes with an id-preserving rewrite of the
table. -/
theorem find?_map_of_job_id (g : Job → Job) (hg : ∀ j, (g j).job_id = j.job_id)
    (id : Nat) (l : List Job) :
    (l.map g).find? (fun j => j.job_id = id) =
      (l.find? (fun j => j.job_id = id)).map g := by
  induction l with
  | nil => rfl
  | cons a l ih =>
      by_cases h : a.job_id = id
      · simp [List.find?_cons, hg a, h]
      · simp [List.find?_cons, hg a, h, ih]

/-- With unique ids, looking up the id of a member finds that member. -/
theorem find?_eq_some_self_of_nodup (l : List Job)
    (hn : (l.map (fun j => j.job_id)).Nodup) (j : Job) (hj : j ∈ l) :
    l.find? (fun x => x.job_id = j.job_id) = some j := by
  induction l with
  | nil => cases hj
  | cons a l ih =>
      rw [List.map_cons, List.nodup_cons] at hn
      rcases List.mem_cons.mp hj with rfl | hj'
      · simp [List.find?_cons]
      · have ha : a.job_id ≠ j.job_id := by
          intro he
          exact hn.1 (he ▸ List.mem_map_of_mem (fun x => x.job_id) hj')
        simp [List.find?_cons, ha, ih hn.2 hj']

theorem assignPositions_length (n : Nat) (l : List Job) :
    (assignPositions n l).length = l.length := by
  induction l generalizing n with
  | nil => rfl
  | cons a l ih => simp [assignPositions, ih]

/-- The i-th job of the enumerate-from-`n` pass is the i-th input job
with position `n + i`. -/
theorem assignPositions_get (n : Nat) (l : List Job) (i : Nat) (h : i < l.length) :
    (assignPositions n l).get ⟨i, by rw [assignPositions_length]; exact h⟩ =
      { l.get ⟨i, h⟩ with position := n + i } := by
  induction l generalizing n i with
  | nil => cases h
  | cons a l ih =>
      cases i with
      | zero => simp [assignPositions]
      | succ i =>
          have h' : i < l.length := Nat.lt_of_succ_lt_succ h
          have := ih (n + 1) i h'
          simp only [assignPositions, List.get_cons_succ, this]
          congr 1
          omega

/-- The enumerate pass only writes `position`: the id sequence is kept. -/
theorem assignPositions_map_job_id (n : Nat) (l : List Job) :
    (assignPositions n l).map (fun j => j.job_id) = l.map (fun j => j.job_id) := by
  induction l generalizing n with
  | nil => rfl
  | cons a l ih => simp [assignPositions, ih]

/-- The position write-back keeps the job id. -/
theorem posRewrite_job_id (sq : List Job) (j : Job) :
    (posRewrite sq j).job_id = j.job_id := by
  unfold posRewrite
  cases sq.find? (fun s => s.job_id = j.job_id) <;> rfl

/-- The position write-back keeps the status. -/
theorem posRewrite_status (sq : List Job) (j : Job) :
    (posRewrite sq j).status = j.status := by
  unfold posRewrite
  cases sq.find? (fun s => s.job_id = j.job_id) <;> rfl

/-- A successful lookup returns a job carrying the looked-up id. -/
theorem get_job_some_job_id (q : JobQueue) (id : Nat) (j : Job)
    (h : q.get_job id = some j) : j.job_id = id := by
  unfold JobQueue.get_job at h
  simpa using List.find?_some h

/-- Lookup after rewriting one record (f preserves the id). -/
theorem find?_updateJob (jobs : List Job) (tid : Nat) (f : Job → Job)
    (hf : ∀ j, (f j).job_id = j.job_id) (id : Nat) :
    (updateJob jobs tid f).find? (fun j => j.job_id = id) =
      (jobs.find? (fun j => j.job_id = id)).map
        (fun j => if j.job_id = tid then f j else j) := by
  unfold updateJob
  exact find?_map_of_job_id _
    (fun j => by by_cases hj : j.job_id = tid <;> simp [hj, hf]) id jobs

/-- Recomputing queue positions changes no job's polled status. -/
theorem statusOf_update_queue_positions (q : JobQueue) (id : Nat) :
    (q.update_queue_positions).statusOf id = q.statusOf id := by
  unfold JobQueue.statusOf JobQueue.get_job JobQueue.update_queue_positions
  rw [find?_map_of_job_id _ (posRewrite_job_id _)]
  cases q.jobs.find? (fun j => j.job_id = id) <;> simp [posRewrite_status]

/-- Polled status of any state whose table is `updateJob` of the original:
the target job shows f's status, every other job is unchanged. -/
theorem statusOf_of_jobs_updateJob (st q : JobQueue) (tid : Nat) (f : Job → Job)
    (hf : ∀ x, (f x).job_id = x.job_id) (hst : st.jobs = updateJob q.jobs tid f)
    (id : Nat) (j : Job) (hj : q.get_job id = some j) :
    st.statusOf id = some (if j.job_id = tid then (f j).status else j.status) := by
  unfold JobQueue.statusOf JobQueue.get_job
  rw [hst, find?_updateJob q.jobs tid f hf id]
  unfold JobQueue.get_job at hj
  rw [hj]
  by_cases hc : j.job_id = tid <;> simp [hc]

/-- As above for an id that is not tracked: it stays untracked. -/
theorem statusOf_none_of_jobs_updateJob (st q : JobQueue) (tid : Nat) (f : Job → Job)
    (hf : ∀ x, (f x).job_id = x.job_id) (hst : st.jobs = updateJob q.jobs tid f)
    (id : Nat) (hj : q.get_job id = none) :
    st.statusOf id = none := by
  unfold JobQueue.statusOf JobQueue.get_job
  rw [hst, find?_updateJob q.jobs tid f hf id]
  unfold JobQueue.get_job at hj
  rw [hj]
  rfl

/-- An id absent from the table stays absent under every operation. -/
theorem applyOp_statusOf_none (q : JobQueue) (op : QueueOp) (id : Nat)
    (h : q.statusOf id = none) : (q.applyOp op).statusOf id = none := by
  have hj : q.get_job id = none := by
    unfold JobQueue.statusOf at h
    exact Option.map_eq_none'.mp h
  have hnone : q.statusOf id = none := h
  cases op with
  | dequeue now =>
      simp only [JobQueue.applyOp, JobQueue.dequeue_step]
      cases hq : q.queue with
      | nil => exact hnone
      | cons id0 rest =>
          unfold JobQueue.start_job
          rw [statusOf_update_queue_positions]
          exact statusOf_none_of_jobs_updateJob _ { q with queue := rest } id0
            (fun j => { j with status := .processing, started_at := some now })
            (fun x => rfl) rfl id hj
  | complete tid p s now =>
      simp only [JobQueue.applyOp, JobQueue.complete_job]
      cases hf : q.get_job tid with
      | none => exact hnone
      | some jt =>
          dsimp only
          split <;>
            exact statusOf_none_of_jobs_updateJob _ q tid
              (fun x => { x with status := .completed, completed_at := some now, result_path := some p, result_seed := some s })
              (fun x => rfl) rfl id hj
  | fail tid e now =>
      simp only [JobQueue.applyOp, JobQueue.fail_job]
      cases hf : q.get_job tid with
      | none => exact hnone
      | some jt =>
          dsimp only
          split <;>
            exact statusOf_none_of_jobs_updateJob _ q tid
              (fun x => { x with status := .failed, completed_at := some now, error := some e })
              (fun x => rfl) rfl id hj

/-- One legal operation moves every job's polled status forward (or not
at all). -/
theorem applyOp_statusOf_forward (q : JobQueue) (op : QueueOp) (id : Nat)
    (a : JobStatus) (hleg : q.legalOp op = true) (h : q.statusOf id = some a) :
    ∃ b, (q.applyOp op).statusOf id = some b ∧ forward a b := by
  obtain ⟨j, hj, ha⟩ : ∃ j, q.get_job id = some j ∧ j.status = a := by
    unfold JobQueue.statusOf at h
    rcases Option.map_eq_some'.mp h with ⟨j, hj, hs⟩
    exact ⟨j, hj, hs⟩
  have hid : j.job_id = id := get_job_some_job_id q id j hj
  subst ha
  cases op with
  | dequeue now =>
      simp only [JobQueue.applyOp, JobQueue.dequeue_step]
      cases hq : q.queue with
      | nil => exact ⟨j.status, h, Or.inl rfl⟩
      | cons id0 rest =>
          unfold JobQueue.start_job
          rw [statusOf_update_queue_positions]
          refine ⟨_, statusOf_of_jobs_updateJob _ { q with queue := rest } id0
            (fun x => { x with status := .processing, started_at := some now })
            (fun x => rfl) rfl id j hj, ?_⟩
          by_cases hc : j.job_id = id0
          · have hii : id0 = id := by rw [← hc, hid]
            have hj0 : q.get_job id0 = some j := by rw [hii]; exact hj
            simp only [JobQueue.legalOp, hq, hj0, decide_eq_true_eq] at hleg
            have hfp : ((fun x : Job => { x with status := JobStatus.processing, started_at := some now }) j).status = JobStatus.processing := rfl
            rw [if_pos hc, hfp, hleg]
            exact Or.inr (by decide)
          · rw [if_neg hc]
            exact Or.inl rfl
  | complete tid p s now =>
      simp only [JobQueue.applyOp, JobQueue.complete_job]
      cases hf : q.get_job tid with
      | none => exact ⟨j.status, h, Or.inl rfl⟩
      | some jt =>
          have key : ∀ st : JobQueue, st.jobs = updateJob q.jobs tid
              (fun x => { x with status := .completed, completed_at := some now, result_path := some p, result_seed := some s }) →
              ∃ b, st.statusOf id = some b ∧ forward j.status b := by
            intro st hst
            refine ⟨_, statusOf_of_jobs_updateJob st q tid
              (fun x => { x with status := JobStatus.completed, completed_at := some now, result_path := some p, result_seed := some s })
              (fun x => rfl) hst id j hj, ?_⟩
            by_cases hc : j.job_id = tid
            · have hjt : jt = j := by
                rw [← hc, hid] at hf
                rw [hj] at hf
                exact (Option.some_inj.mp hf).symm
              simp only [JobQueue.legalOp, hf, hjt, decide_eq_true_eq] at hleg
              have hfc : ((fun x : Job => { x with status := JobStatus.completed, completed_at := some now, result_path := some p, result_seed := some s }) j).status = JobStatus.completed := rfl
              rw [if_pos hc, hfc]
              rcases hleg with hs | hs <;> rw [hs] <;> exact Or.inr (by decide)
            · rw [if_neg hc]
              exact Or.inl rfl
          dsimp only
          split <;> exact key _ rfl
  | fail tid e now =>
      simp only [JobQueue.applyOp, JobQueue.fail_job]
      cases hf : q.get_job tid with
      | none => exact ⟨j.status, h, Or.inl rfl⟩
      | some jt =>
          have key : ∀ st : JobQueue, st.jobs = updateJob q.jobs tid
              (fun x => { x with status := .failed, completed_at := some now, error := some e }) →
              ∃ b, st.statusOf id = some b ∧ forward j.status b := by
            intro st hst
            refine ⟨_, statusOf_of_jobs_updateJob st q tid
              (fun x => { x with status := JobStatus.failed, completed_at := some now, error := some e })
              (fun x => rfl) hst id j hj, ?_⟩
            by_cases hc : j.job_id = tid
            · have hjt : jt = j := by
                rw [← hc, hid] at hf
                rw [hj] at hf
                exact (Option.some_inj.mp hf).symm
              simp only [JobQueue.legalOp, hf, hjt, decide_eq_true_eq] at hleg
              have hfc : ((fun x : Job => { x with status := JobStatus.failed, completed_at := some now, error := some e }) j).status = JobStatus.failed := rfl
              rw [if_pos hc, hfc]
              rcases hleg with hs | hs <;> rw [hs] <;> exact Or.inr (by decide)
            · rw [if_neg hc]
              exact Or.inl rfl
          dsimp only
          split <;> exact key _ rfl

/-- A job absent at the start of a trace is observed nowhere along it. -/
theorem observedStatuses_nil_of_none (q : JobQueue) (ops : List QueueOp) (id : Nat)
    (h : q.statusOf id = none) : observedStatuses q ops id = [] := by
  induction ops generalizing q with
  | nil => simp [observedStatuses, traceStates, h]
  | cons op ops ih =>
      have h' := applyOp_statusOf_none q op id h
      simp only [observedStatuses, traceStates, List.filterMap_cons, h]
      exact ih (q.applyOp op) h'

/-- The first observation of a present job is its current status. -/
theorem observedStatuses_head (q : JobQueue) (ops : List QueueOp) (id : Nat)
    (b : JobStatus) (h : q.statusOf id = some b) :
    (observedStatuses q ops id).head? = some b := by
  cases ops <;> simp [observedStatuses, traceStates, h]

/-! ## Claims -/

/-- C1. Admission control of JobQueue.submit_job: when the number of
enqueued-not-yet-dequeued entries equals the configured (positive)
maximum, submit fails immediately with the QueueFull condition and the
state — lookup table and queue — is returned unchanged, so no Job Record
is created; when the queue is below the maximum, submit succeeds and
returns a new QUEUED job with the fresh id, `created_at = now` and
position `qsize + 1`, appended to the queue and registered in the lookup
table. -/
theorem submit_full_rejects_below_capacity_admits
    (q : JobQueue) (newId now : Nat) (instruction : String) (image_data : List Nat)
    (model : Option String) (seed : Option Int) (system_prompt : Option String)
    (hpos : 0 < q.max_size) :
    (q.queue.length = q.max_size →
      (q.submit_job newId now instruction image_data model seed system_prompt).1 =
          .error ("Queue is full (max " ++ toString q.max_size ++ " jobs)") ∧
      (q.submit_job newId now instruction image_data model seed system_prompt).2 = q) ∧
    (q.queue.length < q.max_size →
      ∃ job,
        (q.submit_job newId now instruction image_data model seed system_prompt).1 =
            .ok job ∧
        job.status = .queued ∧ job.job_id = newId ∧ job.created_at = now ∧
        job.position = q.queue.length + 1 ∧
        (q.submit_job newId now instruction image_data model seed system_prompt).2 =
          { q with queue := q.queue ++ [newId], jobs := q.jobs ++ [job] }) := by
  constructor
  · intro hlen
    have hfull : q.full = true := by
      simp only [JobQueue.full, decide_eq_true_eq]
      omega
    simp [JobQueue.submit_job, hfull]
  · intro hlt
    have hfull : q.full = false := by
      simp only [JobQueue.full, decide_eq_false_iff_not]
      omega
    refine ⟨{ job_id := newId, instruction := instruction, image_data := image_data,
              model := model, seed := seed, system_prompt := system_prompt,
              status := .queued, created_at := now, started_at := none,
              completed_at := none, result_path := none, result_seed := none,
              error := none, position := q.qsize + 1 }, ?_, rfl, rfl, rfl, rfl, ?_⟩ <;>
      simp [JobQueue.submit_job, hfull, JobQueue.qsize]

/-- C1 witness: a queue of capacity 1 holding one entry rejects the next
submit unchanged; the same queue when empty admits. -/
theorem submit_full_rejects_below_capacity_admits_witness :
    (0 : Nat) <
        (JobQueue.mk 1 3600 [7]
          [{ job_id := 7, instruction := "a", image_data := [], created_at := 0 }]
          none).max_size ∧
    ((JobQueue.mk 1 3600 [7]
          [{ job_id := 7, instruction := "a", image_data := [], created_at := 0 }]
          none).queue.length =
        (JobQueue.mk 1 3600 [7]
          [{ job_id := 7, instruction := "a", image_data := [], created_at := 0 }]
          none).max_size →
      ((JobQueue.mk 1 3600 [7]
          [{ job_id := 7, instruction := "a", image_data := [], created_at := 0 }]
          none).submit_job 8 1 "b" [] none none none).1 =
          .error ("Queue is full (max " ++ toString
            (JobQueue.mk 1 3600 [7]
              [{ job_id := 7, instruction := "a", image_data := [], created_at := 0 }]
              none).max_size ++ " jobs)") ∧
      ((JobQueue.mk 1 3600 [7]
          [{ job_id := 7, instruction := "a", image_data := [], created_at := 0 }]
          none).submit_job 8 1 "b" [] none none none).2 =
        (JobQueue.mk 1 3600 [7]
          [{ job_id := 7, instruction := "a", image_data := [], created_at := 0 }]
          none)) := by
  refine ⟨by decide, ?_⟩
  exact (submit_full_rejects_below_capacity_admits
    (JobQueue.mk 1 3600 [7]
      [{ job_id := 7, instruction := "a", image_data := [], created_at := 0 }] none)
    8 1 "b" [] none none none (by decide)).1

/-- C3. The gate fails fast on a variant mismatch: whenever no pipeline is
loaded or the loaded variant differs from the requested key, the whole
generate call returns the RuntimeError outcome, and the state after the
call has `current_variant` and the loaded handle unchanged — the gate
performs no load on behalf of a generate call. -/
theorem generate_mismatch_fails_without_loading
    (pm : PipelineManager) (instruction model_key : String) (seed : Option Int)
    (system_prompt : Option String) (r : Nat)
    (pipe : String → Int → Except String Nat)
    (h : pm.pipeline = none ∨ pm.current_model ≠ some model_key) :
    (pm.generate_image instruction model_key seed system_prompt r pipe).2 =
        .error ("Model " ++ model_key ++
          " not loaded. This should not happen - call load_model first.") ∧
    (pm.generate_image instruction model_key seed system_prompt r pipe).1.current_model =
        pm.current_model ∧
    (pm.generate_image instruction model_key seed system_prompt r pipe).1.pipeline =
        pm.pipeline := by
  rcases h with h | h <;>
    simp [PipelineManager.generate_image, PipelineManager.generate_image_sync, h]

/-- C3 witness: a gate with the 8-step variant loaded refuses a 4-step
generate and keeps its state. -/
theorem generate_mismatch_fails_without_loading_witness :
    ((PipelineManager.mk (some 3) (some "8-step") false false).pipeline = none ∨
      (PipelineManager.mk (some 3) (some "8-step") false false).current_model ≠
        some "4-step") ∧
    ((PipelineManager.mk (some 3) (some "8-step") false false).generate_image
        "x" "4-step" none none 0 (fun _ _ => .ok 0)).2 =
      .error ("Model " ++ "4-step" ++
        " not loaded. This should not happen - call load_model first.") := by
  refine ⟨Or.inr (by decide), ?_⟩
  exact (generate_mismatch_fails_without_loading
    (PipelineManager.mk (some 3) (some "8-step") false false)
    "x" "4-step" none none 0 (fun _ _ => .ok 0) (Or.inr (by decide))).1

/-- C6. Scoped release of the busy flags: a load call entered with
`is_loading` clear leaves `is_loading` clear on every exit path — the
invalid-key path, the cached short-circuit, the successful load, and the
raising load all included — and a generate call leaves `is_generating`
clear on every exit path, the raising pipeline call included. -/
theorem busy_flags_cleared_on_every_exit
    (pm : PipelineManager) (model_key : String) (loadOutcome : Except String Nat)
    (instruction model_key2 : String) (seed : Option Int)
    (system_prompt : Option String) (r : Nat)
    (pipe : String → Int → Except String Nat)
    (h : pm.is_loading = false) :
    ((pm.load_model model_key loadOutcome).1).is_loading = false ∧
    ((pm.generate_image instruction model_key2 seed system_prompt r pipe).1).is_generating =
      false := by
  constructor
  · unfold PipelineManager.load_model
    split
    · exact h
    · split
      · exact h
      · cases loadOutcome <;> rfl
  · rfl

/-- C6 witness: a fresh gate given a raising load procedure and a raising
pipeline call ends with both busy flags clear. -/
theorem busy_flags_cleared_on_every_exit_witness :
    (PipelineManager.mk none none false false).is_loading = false ∧
    (((PipelineManager.mk none none false false).load_model "4-step"
        (.error "CUDA out of memory")).1).is_loading = false ∧
    (((PipelineManager.mk none none false false).generate_image "x" "4-step"
        none none 0 (fun _ _ => .error "CUDA out of memory")).1).is_generating =
      false := by
  refine ⟨rfl, ?_⟩
  exact busy_flags_cleared_on_every_exit
    (PipelineManager.mk none none false false) "4-step" (.error "CUDA out of memory")
    "x" "4-step" none none 0 (fun _ _ => .error "CUDA out of memory") rfl

/-- C7. The worker loop does NOT survive an exception raised while
waiting on the queue before any job has been received: the
`except Exception` handler evaluates `if job:` with the function-local
`job` still unbound, so the handler itself raises `UnboundLocalError`,
which nothing catches, and the worker task terminates instead of
continuing to the next iteration.  This contradicts the specified
behavior (the loop must catch, log and continue) and the evident intent
of the `while self._running` / `except Exception` structure: a code bug,
witnessed here by evaluating the loop body at that input. -/
theorem worker_crashes_on_wait_exception_before_first_job
    (q : JobQueue) (now : Nat) (msg : String) (cb : Option Callback) :
    worker_iteration q none now (.raised msg) cb =
      .crashed q none "UnboundLocalError: local variable referenced before assignment" :=
  rfl

/-- C8. Idempotent short-circuit of loadVariant: when the requested key
is the currently loaded variant (a valid key) and a pipeline handle is
present, load_model returns the cached handle with the gate state
entirely unchanged, for every possible outcome of the load procedure —
i.e. without performing the load at all. -/
theorem load_model_idempotent_short_circuit
    (pm : PipelineManager) (model_key : String) (loadOutcome : Except String Nat)
    (p : Nat) (hk : model_key ∈ MODEL_KEYS) (hc : pm.current_model = some model_key)
    (hp : pm.pipeline = some p) :
    pm.load_model model_key loadOutcome = (pm, .ok p) := by
  unfold PipelineManager.load_model
  rw [if_neg (not_not_intro hk), if_pos ⟨hc, by rw [hp]; exact Option.some_ne_none p⟩, hp]
  rfl

/-- C8 witness: reloading the already-loaded 4-step variant is the
identity even when the (never executed) load procedure would raise. -/
theorem load_model_idempotent_short_circuit_witness :
    "4-step" ∈ MODEL_KEYS ∧
    (PipelineManager.mk (some 5) (some "4-step") false false).current_model =
      some "4-step" ∧
    (PipelineManager.mk (some 5) (some "4-step") false false).pipeline = some 5 ∧
    (PipelineManager.mk (some 5) (some "4-step") false false).load_model "4-step"
        (.error "would have raised") =
      (PipelineManager.mk (some 5) (some "4-step") false false, .ok 5) := by
  refine ⟨by decide, rfl, rfl, ?_⟩
  exact load_model_idempotent_short_circuit
    (PipelineManager.mk (some 5) (some "4-step") false false) "4-step"
    (.error "would have raised") 5 (by decide) rfl rfl

/-- C9. Seed contract of the generation routine: with the variant loaded
and matching, a caller-supplied seed is passed verbatim to the generator
(the pipeline call receives exactly that seed) and returned unchanged as
`seed_used`; with no seed supplied, the drawn `randint(0, 2**32 - 1)`
value is used for the generator and returned, and that value lies in the
inclusive range `[0, 2^32 - 1]` for every RNG draw. -/
theorem generate_seed_contract
    (pm : PipelineManager) (instruction model_key : String)
    (system_prompt : Option String) (r : Nat)
    (pipe : String → Int → Except String Nat)
    (h1 : pm.pipeline ≠ none) (h2 : pm.current_model = some model_key) :
    (∀ s : Int,
      pm.generate_image_sync instruction model_key (some s) system_prompt r pipe =
        (pipe (build_full_prompt instruction system_prompt) s).map (fun img => (img, s))) ∧
    (pm.generate_image_sync instruction model_key none system_prompt r pipe =
      (pipe (build_full_prompt instruction system_prompt)
          (randint 0 (2 ^ 32 - 1) r)).map
        (fun img => (img, randint 0 (2 ^ 32 - 1) r))) ∧
    0 ≤ randint 0 (2 ^ 32 - 1) r ∧ randint 0 (2 ^ 32 - 1) r ≤ 2 ^ 32 - 1 := by
  have hcond : ¬ (pm.pipeline = none ∨ pm.current_model ≠ some model_key) := by
    push_neg
    exact ⟨h1, by rw [h2]⟩
  have hmod : randint 0 (2 ^ 32 - 1) r = (r : Int) % 2 ^ 32 := by
    unfold randint
    norm_num
  refine ⟨?_, ?_, ?_, ?_⟩
  · intro s
    simp only [PipelineManager.generate_image_sync]
    rw [if_neg hcond]
    cases pipe (build_full_prompt instruction system_prompt) s <;> rfl
  · simp only [PipelineManager.generate_image_sync]
    rw [if_neg hcond]
    cases pipe (build_full_prompt instruction system_prompt) (randint 0 (2 ^ 32 - 1) r) <;>
      rfl
  · rw [hmod]
    exact Int.emod_nonneg _ (by norm_num)
  · rw [hmod]
    have := Int.emod_lt_of_pos (r : Int) (b := 2 ^ 32) (by norm_num)
    omega

/-- C9 witness: with the 4-step variant loaded, seed 123 is passed to the
pipeline and echoed back, and the no-seed draw stays within
`[0, 2^32 - 1]`. -/
theorem generate_seed_contract_witness :
    (PipelineManager.mk (some 1) (some "4-step") false false).pipeline ≠ none ∧
    ((PipelineManager.mk (some 1) (some "4-step") false false).generate_image_sync
        "x" "4-step" (some 123) none 999 (fun _ s => .ok s.toNat) =
      ((fun (_ : String) (s : Int) => (.ok s.toNat : Except String Nat))
          (build_full_prompt "x" none) 123).map (fun img => (img, (123 : Int)))) ∧
    0 ≤ randint 0 (2 ^ 32 - 1) 999 ∧ randint 0 (2 ^ 32 - 1) 999 ≤ 2 ^ 32 - 1 := by
  have h := generate_seed_contract
    (PipelineManager.mk (some 1) (some "4-step") false false) "x" "4-step" none 999
    (fun _ s => .ok s.toNat) (by decide) rfl
  exact ⟨by decide, h.1 123, h.2.2.1, h.2.2.2⟩

/-- C4. One reaper sweep removes exactly the jobs whose state is
COMPLETED or FAILED and whose `completed_at` lies more than the retention
window before `now`; in particular a QUEUED or PROCESSING job survives
every sweep regardless of age, and a terminal job whose age exceeds the
window is absent from the lookup table after the sweep. -/
theorem reaper_removes_exactly_stale_terminal_jobs
    (q : JobQueue) (now : Nat) (j : Job) :
    (j ∈ (q.cleanup_old_jobs now).jobs ↔
      j ∈ q.jobs ∧
        ¬ ((j.status = .completed ∨ j.status = .failed) ∧
            ∃ t, j.completed_at = some t ∧ q.cleanup_age_seconds < now - t)) ∧
    ((j.status = .queued ∨ j.status = .processing) →
      (j ∈ (q.cleanup_old_jobs now).jobs ↔ j ∈ q.jobs)) := by
  constructor
  · simp only [JobQueue.cleanup_old_jobs, List.mem_filter, Bool.not_eq_true',
      ← staleTerminal_eq_true_iff q.cleanup_age_seconds now j]
    constructor
    · rintro ⟨hm, hs⟩
      exact ⟨hm, by simp [hs]⟩
    · rintro ⟨hm, hs⟩
      exact ⟨hm, by simpa using hs⟩
  · intro hqp
    have hstale : staleTerminal q.cleanup_age_seconds now j = false := by
      rw [Bool.eq_false_iff, Ne, staleTerminal_eq_true_iff]
      rintro ⟨hterm, -⟩
      rcases hqp with h | h <;> rcases hterm with h' | h' <;> rw [h] at h' <;> cases h'
    simp [JobQueue.cleanup_old_jobs, List.mem_filter, hstale]

/-- C4 witness: a FAILED job aged past the window is reaped while a
PROCESSING job of the same age survives. -/
theorem reaper_removes_exactly_stale_terminal_jobs_witness :
    (¬ ({ job_id := 1, instruction := "a", image_data := [], status := .failed,
          created_at := 0, completed_at := some 0 : Job } ∈
        ((JobQueue.mk 10 60 []
            [{ job_id := 1, instruction := "a", image_data := [], status := .failed,
               created_at := 0, completed_at := some 0 },
             { job_id := 2, instruction := "b", image_data := [],
               status := .processing, created_at := 0 }]
            none).cleanup_old_jobs 100).jobs)) ∧
    ({ job_id := 2, instruction := "b", image_data := [], status := .processing,
       created_at := 0 : Job } ∈
      ((JobQueue.mk 10 60 []
          [{ job_id := 1, instruction := "a", image_data := [], status := .failed,
             created_at := 0, completed_at := some 0 },
           { job_id := 2, instruction := "b", image_data := [],
             status := .processing, created_at := 0 }]
          none).cleanup_old_jobs 100).jobs) := by
  constructor
  · intro hmem
    have h := (reaper_removes_exactly_stale_terminal_jobs
      (JobQueue.mk 10 60 []
        [{ job_id := 1, instruction := "a", image_data := [], status := .failed,
           created_at := 0, completed_at := some 0 },
         { job_id := 2, instruction := "b", image_data := [],
           status := .processing, created_at := 0 }]
        none) 100
      { job_id := 1, instruction := "a", image_data := [], status := .failed,
        created_at := 0, completed_at := some 0 }).1.mp hmem
    exact h.2 ⟨Or.inr rfl, 0, rfl, by decide⟩
  · exact ((reaper_removes_exactly_stale_terminal_jobs
      (JobQueue.mk 10 60 []
        [{ job_id := 1, instruction := "a", image_data := [], status := .failed,
           created_at := 0, completed_at := some 0 },
         { job_id := 2, instruction := "b", image_data := [],
           status := .processing, created_at := 0 }]
        none) 100
      { job_id := 2, instruction := "b", image_data := [], status := .processing,
        created_at := 0 }).2 (Or.inr rfl)).mpr (by decide)

/-- C10. The aggregate status projection: with no CANCELLED job tracked,
`total_jobs` is the sum of the four per-state counts, each count is the
number of tracked jobs in that state, `total_jobs` is the size of the
lookup table, and `current_job_id` reports exactly the designated current
job (absent when none is designated). -/
theorem queue_status_projection_consistent
    (q : JobQueue) (h : ∀ j ∈ q.jobs, j.status ≠ .cancelled) :
    (q.get_queue_status).total_jobs =
        (q.get_queue_status).queued_count + (q.get_queue_status).processing_count +
        (q.get_queue_status).completed_count + (q.get_queue_status).failed_count ∧
    (q.get_queue_status).queued_count =
        (q.jobs.filter (fun j => j.status = .queued)).length ∧
    (q.get_queue_status).processing_count =
        (q.jobs.filter (fun j => j.status = .processing)).length ∧
    (q.get_queue_status).completed_count =
        (q.jobs.filter (fun j => j.status = .completed)).length ∧
    (q.get_queue_status).failed_count =
        (q.jobs.filter (fun j => j.status = .failed)).length ∧
    (q.get_queue_status).total_jobs = q.jobs.length ∧
    (q.get_queue_status).current_job_id = q.current_job := by
  exact ⟨length_eq_sum_status_filters q.jobs h, rfl, rfl, rfl, rfl, rfl, rfl⟩

/-- C10 witness: a concrete mixed-state queue with one job per
non-cancelled state satisfies the projection identities. -/
theorem queue_status_projection_consistent_witness :
    (∀ j ∈ (JobQueue.mk 10 3600 [4]
        [{ job_id := 1, instruction := "a", image_data := [], status := .completed,
           created_at := 0, completed_at := some 1 },
         { job_id := 2, instruction := "b", image_data := [], status := .failed,
           created_at := 0, completed_at := some 1 },
         { job_id := 3, instruction := "c", image_data := [], status := .processing,
           created_at := 1 },
         { job_id := 4, instruction := "d", image_data := [], status := .queued,
           created_at := 2 }]
        (some 3)).jobs, j.status ≠ .cancelled) ∧
    ((JobQueue.mk 10 3600 [4]
        [{ job_id := 1, instruction := "a", image_data := [], status := .completed,
           created_at := 0, completed_at := some 1 },
         { job_id := 2, instruction := "b", image_data := [], status := .failed,
           created_at := 0, completed_at := some 1 },
         { job_id := 3, instruction := "c", image_data := [], status := .processing,
           created_at := 1 },
         { job_id := 4, instruction := "d", image_data := [], status := .queued,
           created_at := 2 }]
        (some 3)).get_queue_status).total_jobs =
      ((JobQueue.mk 10 3600 [4]
        [{ job_id := 1, instruction := "a", image_data := [], status := .completed,
           created_at := 0, completed_at := some 1 },
         { job_id := 2, instruction := "b", image_data := [], status := .failed,
           created_at := 0, completed_at := some 1 },
         { job_id := 3, instruction := "c", image_data := [], status := .processing,
           created_at := 1 },
         { job_id := 4, instruction := "d", image_data := [], status := .queued,
           created_at := 2 }]
        (some 3)).get_queue_status).queued_count +
      ((JobQueue.mk 10 3600 [4]
        [{ job_id := 1, instruction := "a", image_data := [], status := .completed,
           created_at := 0, completed_at := some 1 },
         { job_id := 2, instruction := "b", image_data := [], status := .failed,
           created_at := 0, completed_at := some 1 },
         { job_id := 3, instruction := "c", image_data := [], status := .processing,
           created_at := 1 },
         { job_id := 4, instruction := "d", image_data := [], status := .queued,
           created_at := 2 }]
        (some 3)).get_queue_status).processing_count +
      ((JobQueue.mk 10 3600 [4]
        [{ job_id := 1, instruction := "a", image_data := [], status := .completed,
           created_at := 0, completed_at := some 1 },
         { job_id := 2, instruction := "b", image_data := [], status := .failed,
           created_at := 0, completed_at := some 1 },
         { job_id := 3, instruction := "c", image_data := [], status := .processing,
           created_at := 1 },
         { job_id := 4, instruction := "d", image_data := [], status := .queued,
           created_at := 2 }]
        (some 3)).get_queue_status).completed_count +
      ((JobQueue.mk 10 3600 [4]
        [{ job_id := 1, instruction := "a", image_data := [], status := .completed,
           created_at := 0, completed_at := some 1 },
         { job_id := 2, instruction := "b", image_data := [], status := .failed,
           created_at := 0, completed_at := some 1 },
         { job_id := 3, instruction := "c", image_data := [], status := .processing,
           created_at := 1 },
         { job_id := 4, instruction := "d", image_data := [], status := .queued,
           created_at := 2 }]
        (some 3)).get_queue_status).failed_count := by
  refine ⟨by decide, ?_⟩
  exact (queue_status_projection_consistent
    (JobQueue.mk 10 3600 [4]
      [{ job_id := 1, instruction := "a", image_data := [], status := .completed,
         created_at := 0, completed_at := some 1 },
       { job_id := 2, instruction := "b", image_data := [], status := .failed,
         created_at := 0, completed_at := some 1 },
       { job_id := 3, instruction := "c", image_data := [], status := .processing,
         created_at := 1 },
       { job_id := 4, instruction := "d", image_data := [], status := .queued,
         created_at := 2 }]
      (some 3)) (by decide)).1

/-- C5. Position recomputation (_update_queue_positions, invoked by the
worker each time a job leaves the QUEUED set): with unique job ids, after
recomputation the still-QUEUED jobs, sorted by `created_at` ascending,
carry exactly the positions 1..n — the i-th job of the sorted queued
list (0-based) is stored in the lookup table with position `i + 1`, so in
particular the earliest-created QUEUED job has position 1. -/
theorem update_queue_positions_assigns_one_to_n (q : JobQueue)
    (hn : (q.jobs.map (fun j => j.job_id)).Nodup) :
    List.Sorted byCreated (queuedByCreated q) ∧
    (queuedByCreated q).Perm (q.jobs.filter (fun j => j.status = .queued)) ∧
    ∀ i (h : i < (queuedByCreated q).length),
      (q.update_queue_positions).get_job ((queuedByCreated q).get ⟨i, h⟩).job_id =
        some { (queuedByCreated q).get ⟨i, h⟩ with position := i + 1 } := by
  refine ⟨List.sorted_insertionSort byCreated _, List.perm_insertionSort byCreated _, ?_⟩
  intro i h
  have hjS : (queuedByCreated q).get ⟨i, h⟩ ∈ queuedByCreated q := List.get_mem _ _ _
  have hjQ : (queuedByCreated q).get ⟨i, h⟩ ∈ q.jobs :=
    List.mem_of_mem_filter ((List.perm_insertionSort byCreated _).mem_iff.mp hjS)
  have hSids : ((queuedByCreated q).map (fun j => j.job_id)).Nodup := by
    have hsub : ((q.jobs.filter (fun j => j.status = .queued)).map
        (fun j => j.job_id)).Sublist (q.jobs.map (fun j => j.job_id)) :=
      (List.filter_sublist q.jobs).map _
    exact ((List.perm_insertionSort byCreated
      (q.jobs.filter (fun j => j.status = .queued))).map
        (fun j => j.job_id)).symm.nodup (hsub.nodup hn)
  have hmem : ({ (queuedByCreated q).get ⟨i, h⟩ with position := 1 + i } : Job) ∈
      assignPositions 1 (queuedByCreated q) := by
    rw [← assignPositions_get 1 (queuedByCreated q) i h]
    exact List.get_mem _ _ _
  have hAids : ((assignPositions 1 (queuedByCreated q)).map
      (fun j => j.job_id)).Nodup := by
    rw [assignPositions_map_job_id]
    exact hSids
  have hfind : (assignPositions 1 (queuedByCreated q)).find?
      (fun s => s.job_id = ((queuedByCreated q).get ⟨i, h⟩).job_id) =
      some { (queuedByCreated q).get ⟨i, h⟩ with position := 1 + i } := by
    simpa using find?_eq_some_self_of_nodup _ hAids _ hmem
  unfold JobQueue.update_queue_positions JobQueue.get_job
  rw [find?_map_of_job_id _ (posRewrite_job_id _),
    find?_eq_some_self_of_nodup q.jobs hn _ hjQ]
  simp only [List.get_eq_getElem] at hfind
  simp [posRewrite, hfind, Nat.add_comm 1 i]

/-- C5 witness: two queued jobs submitted out of created-at order receive
positions 1 and 2 in created-at order after recomputation. -/
theorem update_queue_positions_assigns_one_to_n_witness :
    (((JobQueue.mk 10 3600 [1, 2]
        [{ job_id := 1, instruction := "a", image_data := [], status := .queued,
           created_at := 5, position := 0 },
         { job_id := 2, instruction := "b", image_data := [], status := .queued,
           created_at := 3, position := 0 }]
        none).jobs.map (fun j => j.job_id)).Nodup) ∧
    (∀ i (h : i < (queuedByCreated (JobQueue.mk 10 3600 [1, 2]
        [{ job_id := 1, instruction := "a", image_data := [], status := .queued,
           created_at := 5, position := 0 },
         { job_id := 2, instruction := "b", image_data := [], status := .queued,
           created_at := 3, position := 0 }]
        none)).length),
      ((JobQueue.mk 10 3600 [1, 2]
        [{ job_id := 1, instruction := "a", image_data := [], status := .queued,
           created_at := 5, position := 0 },
         { job_id := 2, instruction := "b", image_data := [], status := .queued,
           created_at := 3, position := 0 }]
        none).update_queue_positions).get_job
          ((queuedByCreated (JobQueue.mk 10 3600 [1, 2]
            [{ job_id := 1, instruction := "a", image_data := [], status := .queued,
               created_at := 5, position := 0 },
             { job_id := 2, instruction := "b", image_data := [], status := .queued,
               created_at := 3, position := 0 }]
            none)).get ⟨i, h⟩).job_id =
        some { (queuedByCreated (JobQueue.mk 10 3600 [1, 2]
            [{ job_id := 1, instruction := "a", image_data := [], status := .queued,
               created_at := 5, position := 0 },
             { job_id := 2, instruction := "b", image_data := [], status := .queued,
               created_at := 3, position := 0 }]
            none)).get ⟨i, h⟩ with position := i + 1 }) := by
  refine ⟨by decide, ?_⟩
  exact (update_queue_positions_assigns_one_to_n
    (JobQueue.mk 10 3600 [1, 2]
      [{ job_id := 1, instruction := "a", image_data := [], status := .queued,
         created_at := 5, position := 0 },
       { job_id := 2, instruction := "b", image_data := [], status := .queued,
         created_at := 3, position := 0 }]
      none) (by decide)).2.2

/-- C2 counterexample: complete_job and fail_job guard only on the id
being tracked, not on the current state, so terminal states can be
overwritten.  Concretely: submit a job, let the worker take it, fail it —
the poller sees FAILED — then call the completion transition: the poller
now sees COMPLETED.  A job IS observed to move from FAILED to COMPLETED,
so the claim as stated (any order, any number of times) is false. -/
theorem complete_overwrites_failed_terminal_state :
    (((((JobQueue.mk 10 3600 [] [] none).submit_job 1 0 "edit" [] none none
        none).2.dequeue_step 1).fail_job 1 "boom" 2).statusOf 1 =
      some JobStatus.failed) ∧
    ((((((JobQueue.mk 10 3600 [] [] none).submit_job 1 0 "edit" [] none none
        none).2.dequeue_step 1).fail_job 1 "boom" 2).complete_job 1 "/out/a.png" 42
        3).statusOf 1 = some JobStatus.completed) :=
  ⟨rfl, rfl⟩

/-- C2 (amended). Along every trace of worker-dequeue / complete / fail
operations in which a dequeue only ever takes a QUEUED job and a terminal
transition is only applied to a not-yet-terminal job — i.e. each job
reaches a terminal transition at most once, which is what normal
operation guarantees and what the design expects of callers (spec §4.3) —
the state sequence observed by polling any job is a `forward` chain: a
subsequence of QUEUED → PROCESSING → {COMPLETED|FAILED} with no backward
move and no terminal-to-terminal move.  Without that restriction the
claim fails, since a second terminal transition silently overwrites the
first. -/
theorem polled_status_moves_forward_on_legal_traces
    (q : JobQueue) (id : Nat) (ops : List QueueOp)
    (h : LegalTrace q ops = true) :
    List.Chain' forward (observedStatuses q ops id) := by
  induction ops generalizing q with
  | nil =>
      cases hs : q.statusOf id <;>
        simp [observedStatuses, traceStates, hs]
  | cons op ops ih =>
      simp only [LegalTrace, Bool.and_eq_true] at h
      cases hs : q.statusOf id with
      | none =>
          rw [observedStatuses_nil_of_none q (op :: ops) id hs]
          exact List.chain'_nil
      | some a =>
          obtain ⟨b, hb, hfwd⟩ := applyOp_statusOf_forward q op id a h.1 hs
          have hobs : observedStatuses q (op :: ops) id =
              a :: observedStatuses (q.applyOp op) ops id := by
            simp [observedStatuses, traceStates, hs]
          rw [hobs]
          refine List.chain'_cons'.mpr ⟨?_, ih (q.applyOp op) h.2⟩
          intro y hy
          rw [observedStatuses_head (q.applyOp op) ops id b hb] at hy
          cases hy
          exact hfwd

/-- C2 witness: two submissions followed by dequeue, complete, dequeue,
fail form a legal trace, and the first job's polled statuses form a
forward chain along it. -/
theorem polled_status_moves_forward_on_legal_traces_witness :
    (LegalTrace
        ((((JobQueue.mk 10 3600 [] [] none).submit_job 1 0 "a" [] none none
            none).2.submit_job 2 1 "b" [] none none none).2)
        [QueueOp.dequeue 2, QueueOp.complete 1 "/out/a.png" 42 3,
          QueueOp.dequeue 4, QueueOp.fail 2 "boom" 5] = true) ∧
    List.Chain' forward
      (observedStatuses
        ((((JobQueue.mk 10 3600 [] [] none).submit_job 1 0 "a" [] none none
            none).2.submit_job 2 1 "b" [] none none none).2)
        [QueueOp.dequeue 2, QueueOp.complete 1 "/out/a.png" 42 3,
          QueueOp.dequeue 4, QueueOp.fail 2 "boom" 5] 1) :=
  ⟨by decide,
    polled_status_moves_forward_on_legal_traces _ 1 _ (by decide)⟩

end QwenAPI
